import Mathlib

/-!
# Verification of the slot-watching bot (`src/main.py`)

A shallow embedding of the change-detection and notification engine of
`src/main.py`.  Python dictionaries produced by the JSON payload are
modelled as structures whose fields are `Option PyVal` (`none` = the key
is absent); Python scalar values are `PyVal`; functions that can raise
return `Except`.  The global mutable set `KNOWN_SLOTS` is passed
explicitly as a `Finset String`, and each poll cycle (`check_slots`)
returns its observable outcome together with the updated known set.
-/

deriving instance DecidableEq for Except

namespace Main

/-- A Python scalar value as it occurs in the parsed JSON payload:
a string, an integer, or `None`. -/
inductive PyVal where
  | pstr (s : String)
  | pint (n : Int)
  | pnone
  deriving DecidableEq, Repr

/-- Python truthiness of a `PyVal` (`if value:`): a string is truthy iff
non-empty, an integer iff non-zero, `None` is falsy. -/
def pyTruthy : PyVal → Bool
  | .pstr s => !(s == "")
  | .pint n => n != 0
  | .pnone => false

/-- Python `str(value)`. -/
def pyStr : PyVal → String
  | .pstr s => s
  | .pint n => toString n
  | .pnone => "None"

/-- Python `str.strip()`: drop whitespace from both ends.  (The standard
`String.trim` is implemented on `Substring` and does not reduce inside
the kernel, so the character-list equivalent is used throughout.) -/
def pyStrip (s : String) : String :=
  ⟨((s.data.dropWhile Char.isWhitespace).reverse.dropWhile
      Char.isWhitespace).reverse⟩

/-- Python `str.lower()`, restricted to ASCII case mapping. -/
def pyLower (s : String) : String := ⟨s.data.map Char.toLower⟩

/-- Decimal value of a digit run. -/
def digitsToNat (ds : List Char) : Nat :=
  ds.foldl (fun n c => n * 10 + (c.toNat - 48)) 0

/-- Integer parsing of a string as Python `int(s)` does it: surrounding
whitespace is stripped, an optional single sign is allowed, and the rest
must be a non-empty run of decimal digits.  `none` when unparsable. -/
def parseIntStr (s : String) : Option Int :=
  match (pyStrip s).data with
  | [] => none
  | '-' :: ds =>
    if ds ≠ [] ∧ ds.all Char.isDigit then some (-(digitsToNat ds : Int))
    else none
  | '+' :: ds =>
    if ds ≠ [] ∧ ds.all Char.isDigit then some ((digitsToNat ds : Int))
    else none
  | ds =>
    if ds.all Char.isDigit then some ((digitsToNat ds : Int)) else none

/-- Python `int(value)` on a scalar: an integer is itself, a numeric
string parses, a non-numeric string raises `ValueError`, `None` raises
`TypeError`.  The `Except.error` constructor models the raised
exception. -/
def pyInt : PyVal → Except String Int
  | .pint n => .ok n
  | .pstr s =>
    match parseIntStr s with
    | some n => .ok n
    | none => .error ("ValueError: invalid literal for int: " ++ s)
  | .pnone => .error "TypeError: int argument must not be NoneType"

/-- Models `hashlib.md5(s.encode()).hexdigest()` from the Python standard
library (code external to this repository): an opaque, fixed,
deterministic digest of the input string.  Only its determinism and its
functional dependence on exactly the input string matter to any property
proved in this file, so the digest is realised by a simple executable
stand-in rather than the MD5 rounds. -/
def md5hexdigest (s : String) : String :=
  toString (s.foldl (fun h c => (h * 131 + c.toNat) % 4294967291) 7)

/-- A record-like object of the payload (`group` in the source): the
dictionary keys the program reads, each possibly absent.  The payload
key `section` is stored in the field `sectionField`, because `section`
is a reserved word in Lean. -/
structure Group where
  id : Option PyVal
  week : Option PyVal
  time : Option PyVal
  teacherUid : Option PyVal
  sectionField : Option PyVal
  place : Option PyVal
  teacherName : Option PyVal
  vacancy : Option PyVal
  deriving DecidableEq, Repr

/-- A group with every key absent; concrete records below are written as
updates of it. -/
def emptyGroup : Group := ⟨none, none, none, none, none, none, none, none⟩

/-- One element of the top-level payload list (`day_data` in the source);
the program only reads `day_data.get('groups', [])`. -/
structure Day where
  groups : Option (List Group)
  deriving DecidableEq, Repr

/-- `dict.get(k)` without a default: `None` when the key is absent. -/
def pyGet (field : Option PyVal) : PyVal := field.getD .pnone

/-- `str(item.get(k, ''))`: absent keys default to the empty string. -/
def strFieldD (field : Option PyVal) : String := pyStr (field.getD (.pstr ""))

/-- `int(group.get('vacancy', 0))`, the capacity coercion, as an
exception-transparent computation. -/
def coerceVacancy (g : Group) : Except String Int :=
  pyInt (g.vacancy.getD (.pint 0))

/-- `generate_slot_id` (src/main.py:154): the fingerprint.  If
`item.get('id')` is truthy the fingerprint is `str` of it; otherwise it
is the md5 hex digest of the `"_"`-join of
`str(item.get('week',''))`, `str(item.get('time',''))`,
`str(item.get('teacherUid',''))`, `str(item.get('section',''))`. -/
def generate_slot_id (item : Group) : String :=
  if pyTruthy (pyGet item.id) then pyStr (pyGet item.id)
  else
    md5hexdigest (String.intercalate "_"
      [strFieldD item.week, strFieldD item.time,
       strFieldD item.teacherUid, strFieldD item.sectionField])

/-- `normalize_name` (src/main.py:168): collapse whitespace, split, and
abbreviate a full name to "Surname I.O." (three or more parts) or
"Surname I." (two parts); otherwise the name is returned unchanged.
Lowercasing elsewhere in this file is ASCII `String.toLower`. -/
def pyWordsAux : List Char → List Char → List String
  | [], acc => if acc.isEmpty then [] else [⟨acc.reverse⟩]
  | c :: rest, acc =>
    if c.isWhitespace then
      if acc.isEmpty then pyWordsAux rest []
      else (⟨acc.reverse⟩ : String) :: pyWordsAux rest []
    else pyWordsAux rest (c :: acc)

/-- The whitespace-separated words of a string: the combined effect of
`re.sub` collapsing whitespace runs, `strip`, and `split` at
src/main.py:172. -/
def pyWords (s : String) : List String := pyWordsAux s.data []

/-- The one-character string `p[0]` (`parts` entries are non-empty). -/
def firstChar (p : String) : String :=
  match p.data with
  | [] => ""
  | c :: _ => ⟨[c]⟩

def normalize_name (name : String) : String :=
  if name == "" then ""
  else
    match pyWords name with
    | p0 :: p1 :: p2 :: _ =>
      p0 ++ " " ++ firstChar p1 ++ "." ++ firstChar p2 ++ "."
    | [p0, p1] => p0 ++ " " ++ firstChar p1 ++ "."
    | _ => name

/-- One entry of the `TEACHER_RATINGS` cache: the dictionary loaded from
`teachers.json`, of which the program reads keys `rating` and `url`. -/
structure TeacherInfo where
  rating : Option PyVal
  url : Option PyVal
  deriving DecidableEq, Repr

/-- Lookup in the ratings dictionary (modelled as an association list
keyed by lowercased names, as `fetch_teacher_ratings` builds it). -/
def ratingsGet (ratings : List (String × TeacherInfo)) (key : String) :
    Option TeacherInfo :=
  (ratings.find? (fun kv => kv.fst = key)).map (fun kv => kv.snd)

/-- `find_teacher_info` (src/main.py:202): exact lowercased match first,
then the normalized "Surname I.O." form. -/
def find_teacher_info (ratings : List (String × TeacherInfo))
    (name : String) : Option TeacherInfo :=
  if name == "" then none
  else
    match ratingsGet ratings (pyLower name) with
    | some info => some info
    | none => ratingsGet ratings (pyLower (normalize_name name))

/-- `item.get(k) or fallback`: the Python idiom used by `format_message`
for every display field — a falsy value (absent key, `None`, empty
string, zero) is replaced by the fallback text. -/
def fieldOr (field : Option PyVal) (fallback : String) : String :=
  let v := pyGet field
  if pyTruthy v then pyStr v else fallback

/-- The rating block of one card in `format_message`: rating plus an
optional profile link when the teacher is found, a placeholder line
otherwise. -/
def ratingDisplay (ratings : List (String × TeacherInfo))
    (teacher : String) : String :=
  match find_teacher_info ratings teacher with
  | some info =>
    let base := "⭐️ Рейтинг: <b>" ++ pyStr (info.rating.getD (.pstr "??")) ++ "</b>"
    let urlv := pyGet info.url
    if pyTruthy urlv then
      base ++ "\n🔗 <a href=\x27" ++ pyStr urlv ++ "\x27>Профиль на Studizba</a>"
    else base
  | none => "ℹ️ Рейтинг: <i>не найден</i>"

/-- One record card of `format_message` (src/main.py:237): the fixed
template with fallback text for every missing field.  `vacancy` is
displayed as `item.get('vacancy', 0)` without coercion. -/
def formatCard (ratings : List (String × TeacherInfo)) (item : Group) :
    String :=
  let teacher := fieldOr item.teacherName "Преподаватель не указан"
  "🏟 <b>" ++ fieldOr item.sectionField "Тренировка" ++ "</b>\n" ++
  "🗓  " ++ fieldOr item.week "День недели" ++ " |⏰  " ++
    fieldOr item.time "??" ++ "\n" ++
  "📍  " ++ fieldOr item.place "СК МГТУ" ++ "\n" ++
  "👨‍🏫  " ++ teacher ++ "\n" ++
  ratingDisplay ratings teacher ++ "\n" ++
  "🟢  Свободно мест: <b>" ++ pyStr (item.vacancy.getD (.pint 0)) ++ "</b>"

/-- The list `msg_lines` of `format_message` (src/main.py:212): the
header followed by one card per input record — every record of
`new_items`, in order, with no truncation. -/
def formatMessageLines (ratings : List (String × TeacherInfo))
    (new_items : List Group) : List String :=
  "<b>🔥 ДОСТУПНЫ НОВЫЕ СЛОТЫ!</b>\n" :: new_items.map (formatCard ratings)

/-- `format_message` (src/main.py:212): the single rendered message. -/
def format_message (ratings : List (String × TeacherInfo))
    (new_items : List Group) : String :=
  String.intercalate "\n\n" (formatMessageLines ratings new_items)

/-- Number of record card entries in the rendered message: everything
after the header line. -/
def renderedCardCount (ratings : List (String × TeacherInfo))
    (new_items : List Group) : Nat :=
  (formatMessageLines ratings new_items).length - 1

/-- The loop state of `check_slots` steps 5 (src/main.py:280): the keys
of `current_slots_map` in insertion order, the accumulator
`new_slots_data`, and the running global `KNOWN_SLOTS`. -/
structure LoopState where
  currentIds : List String
  newSlots : List Group
  known : Finset String
  deriving DecidableEq

/-- The parsing loop of `check_slots` over the flattened group sequence
(src/main.py:280-291).  For each group: its slot id joins the current
full set; then `int(group.get('vacancy', 0))` is evaluated — if it
raises, the loop aborts carrying the state mutated so far (the global
`KNOWN_SLOTS` keeps the additions already made); if the vacancy is
positive and the id is not yet known, the group is appended to
`new_slots_data` and its id added to `KNOWN_SLOTS`. -/
def processGroups : List Group → LoopState → Except LoopState LoopState
  | [], st => .ok st
  | g :: rest, st =>
    let sid := generate_slot_id g
    let st1 : LoopState := { st with currentIds := st.currentIds ++ [sid] }
    match coerceVacancy g with
    | .error _ => .error st1
    | .ok v =>
      if 0 < v ∧ sid ∉ st.known then
        processGroups rest
          { st1 with newSlots := st1.newSlots ++ [g],
                     known := insert sid st1.known }
      else processGroups rest st1

/-- The outcome of one fetch, at the boundary the poll cycle observes:
either an HTTP response arrived (with its status code, and `some days`
when `response.json()` parses, `none` when it raises), or the request
itself raised (timeout, connection error). -/
inductive FetchResult where
  | httpResponse (status : Nat) (payload : Option (List Day))
  | networkFailure
  deriving DecidableEq

/-- The observable outcome of one `check_slots` cycle, one constructor
per `return` path of the source:
* `reauth` — status 401/403: `update_cookies_via_selenium()` is called
  exactly once and the function returns (src/main.py:259-262); no
  recursion, no refetch within the cycle;
* `serverError` — any other non-200 status: logged and returned
  (src/main.py:265-267);
* `emptySchedule` — the parsed `days_list` is falsy: logged and
  returned before any classification (src/main.py:272-274);
* `completed newSlots` — the classification ran to the end;
  `KNOWN_SLOTS` was intersected with the current full set, and a
  notification (`format_message` of `newSlots` plus the booking link)
  is sent iff `newSlots` is non-empty (src/main.py:276-304);
* `errorCaught` — an exception reached the handler at
  src/main.py:306 (network failure, JSON parse failure, or a vacancy
  coercion failure mid-loop). -/
inductive CycleOutcome where
  | reauth
  | serverError (status : Nat)
  | emptySchedule
  | completed (newSlots : List Group)
  | errorCaught
  deriving DecidableEq

/-- `check_slots` (src/main.py:250): one poll cycle, from the fetch
result and the prior `KNOWN_SLOTS` to the cycle outcome and the new
`KNOWN_SLOTS`. -/
def check_slots (r : FetchResult) (known : Finset String) :
    CycleOutcome × Finset String :=
  match r with
  | .networkFailure => (.errorCaught, known)
  | .httpResponse status payload =>
    if status = 401 ∨ status = 403 then (.reauth, known)
    else if status ≠ 200 then (.serverError status, known)
    else
      match payload with
      | none => (.errorCaught, known)
      | some days =>
        if days.isEmpty then (.emptySchedule, known)
        else
          match processGroups (days.flatMap (fun d => d.groups.getD []))
              ⟨[], [], known⟩ with
          | .error st => (.errorCaught, st.known)
          | .ok st =>
            (.completed st.newSlots,
             st.known.filter (fun sid => st.currentIds.contains sid))

/-- Whether a cycle outcome sends a notification (src/main.py:297). -/
def notifies : CycleOutcome → Bool
  | .completed ns => !ns.isEmpty
  | _ => false

/-- The fingerprints a cycle classified as newly available. -/
def newlyIds : CycleOutcome → List String
  | .completed ns => ns.map generate_slot_id
  | _ => []

/-- The collection loop of `get_all_available_slots`
(src/main.py:329-332) over the flattened group sequence: append each
group whose coerced vacancy is positive; a coercion exception is caught
by the handler at src/main.py:334 and the slots accumulated so far are
returned. -/
def collectAvailable : List Group → List Group → List Group
  | [], acc => acc
  | g :: rest, acc =>
    match coerceVacancy g with
    | .error _ => acc
    | .ok v =>
      if 0 < v then collectAvailable rest (acc ++ [g])
      else collectAvailable rest acc

/-- `get_all_available_slots` (src/main.py:310): the on-demand snapshot
fetch behind the `/check` command.  Returns `[]` on 401/403 (after one
reauthentication attempt), on any other non-200 status, on a network
failure, and on a JSON parse failure; otherwise collects the groups
with positive vacancy, returning the partial list accumulated before
any coercion exception.  It never raises to its caller. -/
def get_all_available_slots (r : FetchResult) : List Group :=
  match r with
  | .networkFailure => []
  | .httpResponse status payload =>
    if status = 401 ∨ status = 403 then []
    else if status ≠ 200 then []
    else
      match payload with
      | none => []
      | some days =>
        collectAvailable (days.flatMap (fun d => d.groups.getD [])) []

/-- The fixed reply of `/check` when no slots are available
(src/main.py:359). -/
def noSlotsReply : String := "❌ На данный момент доступных записей нет."

/-- `handle_check_command` (src/main.py:349): the text of the single
reply sent for `/check`, as a function of the snapshot fetch result and
the ratings cache. -/
def handle_check_command (ratings : List (String × TeacherInfo))
    (r : FetchResult) : String :=
  let slots := get_all_available_slots r
  if slots.isEmpty then noSlotsReply
  else
    format_message ratings slots ++
      "\n\n<a href=\x27https://lks.bmstu.ru/fv/new-record\x27><b>ПЕРЕЙТИ К ЗАПИСИ</b></a>"

/-- An inbound Telegram message as the command loop reads it: the
sender identity of the originating chat, and the text when present. -/
structure TgMessage where
  sender : String
  text : Option String
  deriving DecidableEq

/-- One element of the `getUpdates` result array. -/
structure TgUpdate where
  update_id : Nat
  message : Option TgMessage
  deriving DecidableEq

/-- A command handler invocation: `handle_start_command` (the greeting
reply) or `handle_check_command` (the snapshot fetch and reply). -/
inductive BotAction where
  | greetReply
  | snapshotReply
  deriving DecidableEq

/-- The update-processing loop of `check_telegram_commands`
(src/main.py:378-386): advance `LAST_UPDATE_ID` over every update; when
an update carries a message with text, strip and lowercase it and run
the handler for `/start` or `/check`.  No field of the update other
than `update_id` and the message text is consulted — in particular the
sender identity is never compared with anything. -/
def processUpdates : List TgUpdate → Nat → Nat × List BotAction
  | [], lastId => (lastId, [])
  | u :: rest, _ =>
    let acts : List BotAction :=
      match u.message with
      | none => []
      | some m =>
        match m.text with
        | none => []
        | some t =>
          let cmd := pyLower (pyStrip t)
          if cmd = "/start" then [.greetReply]
          else if cmd = "/check" then [.snapshotReply]
          else []
    let tail := processUpdates rest u.update_id
    (tail.fst, acts ++ tail.snd)

/-- `check_telegram_commands` (src/main.py:368): one pass of the command
channel, from the `getUpdates` HTTP status and result array and the
prior offset to the new offset and the handlers invoked, in order. -/
def check_telegram_commands (status : Nat) (updates : List TgUpdate)
    (lastId : Nat) : Nat × List BotAction :=
  if status = 200 then processUpdates updates lastId else (lastId, [])

/-- A successful fetch whose payload is a single day holding the given
group sequence: the payload shape used to state the multi-cycle
properties (the classification flattens days, so the record sequence is
fully general). -/
def singleDay (gs : List Group) : FetchResult :=
  .httpResponse 200 (some [⟨some gs⟩])

/-- Every group of the sequence has a vacancy value `int()` accepts:
the hypothesis under which a classification cycle completes. -/
def allVacanciesParse (gs : List Group) : Prop :=
  ∀ x ∈ gs, ∃ n, coerceVacancy x = Except.ok n

/- ## Loop lemmas for `processGroups` -/

theorem processGroups_currentIds : ∀ (gs : List Group) (st st' : LoopState),
    processGroups gs st = .ok st' →
    st'.currentIds = st.currentIds ++ gs.map generate_slot_id := by
  intro gs
  induction gs with
  | nil =>
    intro st st' h
    simp only [processGroups, Except.ok.injEq] at h
    simp [← h]
  | cons g rest ih =>
    intro st st' h
    cases hv : coerceVacancy g with
    | error e =>
      simp only [processGroups, hv] at h
      exact Except.noConfusion h
    | ok v =>
      simp only [processGroups, hv] at h
      by_cases hc : 0 < v ∧ generate_slot_id g ∉ st.known
      · rw [if_pos hc] at h
        have := ih _ _ h
        simp [this, List.append_assoc]
      · rw [if_neg hc] at h
        have := ih _ _ h
        simp [this, List.append_assoc]

theorem processGroups_known_mono : ∀ (gs : List Group) (st st' : LoopState),
    processGroups gs st = .ok st' → st.known ⊆ st'.known := by
  intro gs
  induction gs with
  | nil =>
    intro st st' h
    simp only [processGroups, Except.ok.injEq] at h
    simp [← h]
  | cons g rest ih =>
    intro st st' h
    cases hv : coerceVacancy g with
    | error e =>
      simp only [processGroups, hv] at h
      exact Except.noConfusion h
    | ok v =>
      simp only [processGroups, hv] at h
      by_cases hc : 0 < v ∧ generate_slot_id g ∉ st.known
      · rw [if_pos hc] at h
        have h2 := ih _ _ h
        exact fun x hx => h2 (Finset.mem_insert_of_mem hx)
      · rw [if_neg hc] at h
        have h2 := ih _ _ h
        exact h2

theorem processGroups_newSlots_mono : ∀ (gs : List Group) (st st' : LoopState),
    processGroups gs st = .ok st' → ∀ x ∈ st.newSlots, x ∈ st'.newSlots := by
  intro gs
  induction gs with
  | nil =>
    intro st st' h
    simp only [processGroups, Except.ok.injEq] at h
    simp [← h]
  | cons g rest ih =>
    intro st st' h
    cases hv : coerceVacancy g with
    | error e =>
      simp only [processGroups, hv] at h
      exact Except.noConfusion h
    | ok v =>
      simp only [processGroups, hv] at h
      by_cases hc : 0 < v ∧ generate_slot_id g ∉ st.known
      · rw [if_pos hc] at h
        have h2 := ih _ _ h
        exact fun x hx => h2 x (List.mem_append_left _ hx)
      · rw [if_neg hc] at h
        have h2 := ih _ _ h
        exact h2

theorem processGroups_adds_available : ∀ (gs : List Group) (st st' : LoopState)
    (g : Group) (v : Int), g ∈ gs → coerceVacancy g = .ok v → 0 < v →
    processGroups gs st = .ok st' → generate_slot_id g ∈ st'.known := by
  intro gs
  induction gs with
  | nil => intro st st' g v hg _ _ _; exact absurd hg (List.not_mem_nil g)
  | cons a rest ih =>
    intro st st' g v hg hcv hpos h
    cases hv : coerceVacancy a with
    | error e =>
      simp only [processGroups, hv] at h
      exact Except.noConfusion h
    | ok w =>
      simp only [processGroups, hv] at h
      rcases List.mem_cons.mp hg with rfl | hmem
      · -- the head is the record itself
        rw [hcv] at hv
        cases hv
        by_cases hc : 0 < v ∧ generate_slot_id g ∉ st.known
        · rw [if_pos hc] at h
          exact processGroups_known_mono _ _ _ h (Finset.mem_insert_self _ _)
        · rw [if_neg hc] at h
          have hin : generate_slot_id g ∈ st.known := by
            rcases not_and_or.mp hc with hbad | hbad
            · exact absurd hpos hbad
            · exact not_not.mp hbad
          exact processGroups_known_mono _ _ _ h hin
      · by_cases hc : 0 < w ∧ generate_slot_id a ∉ st.known
        · rw [if_pos hc] at h
          exact ih _ _ _ _ hmem hcv hpos h
        · rw [if_neg hc] at h
          exact ih _ _ _ _ hmem hcv hpos h

theorem processGroups_no_renotify : ∀ (gs : List Group) (st st' : LoopState)
    (s : String), s ∈ st.known → processGroups gs st = .ok st' →
    ∀ x ∈ st'.newSlots, x ∈ st.newSlots ∨ generate_slot_id x ≠ s := by
  intro gs
  induction gs with
  | nil =>
    intro st st' s _ h x hx
    simp only [processGroups, Except.ok.injEq] at h
    exact Or.inl (h ▸ hx)
  | cons a rest ih =>
    intro st st' s hs h x hx
    cases hv : coerceVacancy a with
    | error e =>
      simp only [processGroups, hv] at h
      exact Except.noConfusion h
    | ok w =>
      simp only [processGroups, hv] at h
      by_cases hc : 0 < w ∧ generate_slot_id a ∉ st.known
      · rw [if_pos hc] at h
        have hne : generate_slot_id a ≠ s := fun heq => hc.2 (heq ▸ hs)
        have h2 := ih _ _ s (Finset.mem_insert_of_mem hs) h x hx
        rcases h2 with h2 | h2
        · rcases List.mem_append.mp h2 with h3 | h3
          · exact Or.inl h3
          · rcases List.mem_singleton.mp h3 with rfl
            exact Or.inr hne
        · exact Or.inr h2
      · rw [if_neg hc] at h
        exact ih ⟨st.currentIds ++ [generate_slot_id a], st.newSlots, st.known⟩
          st' s hs h x hx

theorem processGroups_classifies_fresh : ∀ (gs : List Group)
    (st st' : LoopState) (g : Group) (v : Int), g ∈ gs →
    coerceVacancy g = .ok v → 0 < v → generate_slot_id g ∉ st.known →
    processGroups gs st = .ok st' →
    ∃ x ∈ st'.newSlots, generate_slot_id x = generate_slot_id g := by
  intro gs
  induction gs with
  | nil => intro st st' g v hg _ _ _ _; exact absurd hg (List.not_mem_nil g)
  | cons a rest ih =>
    intro st st' g v hg hcv hpos hfresh h
    cases hv : coerceVacancy a with
    | error e =>
      simp only [processGroups, hv] at h
      exact Except.noConfusion h
    | ok w =>
      simp only [processGroups, hv] at h
      by_cases hc : 0 < w ∧ generate_slot_id a ∉ st.known
      · rw [if_pos hc] at h
        by_cases hid : generate_slot_id a = generate_slot_id g
        · -- the appended head already carries the fingerprint
          refine ⟨a, ?_, hid⟩
          exact processGroups_newSlots_mono _ _ _ h a
            (List.mem_append_right _ (List.mem_singleton.mpr rfl))
        · have hmem : g ∈ rest := by
            rcases List.mem_cons.mp hg with rfl | hmem
            · exact absurd rfl hid
            · exact hmem
          refine ih ⟨st.currentIds ++ [generate_slot_id a], st.newSlots ++ [a],
            insert (generate_slot_id a) st.known⟩ st' g v hmem hcv hpos ?_ h
          simp only [Finset.mem_insert]
          rintro (hh | hh)
          · exact hid hh.symm
          · exact hfresh hh
      · rw [if_neg hc] at h
        have hmem : g ∈ rest := by
          rcases List.mem_cons.mp hg with rfl | hmem
          · exfalso
            rw [hcv] at hv
            cases hv
            rcases not_and_or.mp hc with hbad | hbad
            · exact hbad hpos
            · exact hfresh (not_not.mp hbad)
          · exact hmem
        exact ih ⟨st.currentIds ++ [generate_slot_id a], st.newSlots, st.known⟩
          st' g v hmem hcv hpos hfresh h

theorem processGroups_total : ∀ (gs : List Group) (st : LoopState),
    allVacanciesParse gs → ∃ st', processGroups gs st = .ok st' := by
  intro gs
  induction gs with
  | nil => intro st _; exact ⟨st, rfl⟩
  | cons a rest ih =>
    intro st hok
    obtain ⟨w, hw⟩ := hok a (List.mem_cons_self a rest)
    have hrest : allVacanciesParse rest := fun x hx => hok x (List.mem_cons_of_mem a hx)
    by_cases hc : 0 < w ∧ generate_slot_id a ∉ st.known
    · obtain ⟨st', hst'⟩ := ih _ hrest
      exact ⟨st', by simp only [processGroups, hw]; rw [if_pos hc]; exact hst'⟩
    · obtain ⟨st', hst'⟩ := ih _ hrest
      exact ⟨st', by simp only [processGroups, hw]; rw [if_neg hc]; exact hst'⟩

/- ## Cycle-level lemmas -/

theorem check_slots_singleDay_ok (gs : List Group) (K : Finset String)
    (hok : allVacanciesParse gs) :
    ∃ st', processGroups gs ⟨[], [], K⟩ = .ok st' ∧
      check_slots (singleDay gs) K =
        (.completed st'.newSlots,
         st'.known.filter (fun sid => st'.currentIds.contains sid)) := by
  obtain ⟨st', hst'⟩ := processGroups_total gs ⟨[], [], K⟩ hok
  refine ⟨st', hst', ?_⟩
  simp only [check_slots, singleDay]
  norm_num
  rw [hst']

theorem check_slots_retains (gs : List Group) (K : Finset String)
    (g : Group) (v : Int) (hok : allVacanciesParse gs) (hg : g ∈ gs)
    (hv : coerceVacancy g = .ok v) (hpos : 0 < v) :
    generate_slot_id g ∈ (check_slots (singleDay gs) K).2 := by
  obtain ⟨st', hst', heq⟩ := check_slots_singleDay_ok gs K hok
  rw [heq]
  refine Finset.mem_filter.mpr ⟨processGroups_adds_available _ _ _ _ _ hg hv hpos hst', ?_⟩
  have hids := processGroups_currentIds _ _ _ hst'
  have hmem : generate_slot_id g ∈ st'.currentIds := by
    rw [hids]
    exact List.mem_append_right _ (List.mem_map_of_mem _ hg)
  simpa using hmem

theorem check_slots_evicts (gs : List Group) (K : Finset String) (x : String)
    (hok : allVacanciesParse gs)
    (hx : x ∈ (check_slots (singleDay gs) K).2) :
    x ∈ gs.map generate_slot_id := by
  obtain ⟨st', hst', heq⟩ := check_slots_singleDay_ok gs K hok
  rw [heq] at hx
  have hc := (Finset.mem_filter.mp hx).2
  have hids := processGroups_currentIds _ _ _ hst'
  rw [hids] at hc
  simpa using hc

theorem check_slots_no_renotify (gs : List Group) (K : Finset String)
    (s : String) (hok : allVacanciesParse gs) (hs : s ∈ K) :
    s ∉ newlyIds (check_slots (singleDay gs) K).1 := by
  obtain ⟨st', hst', heq⟩ := check_slots_singleDay_ok gs K hok
  rw [heq]
  intro habs
  simp only [newlyIds, List.mem_map] at habs
  obtain ⟨x, hxmem, hxid⟩ := habs
  have h2 := processGroups_no_renotify gs ⟨[], [], K⟩ st' s hs hst' x hxmem
  rcases h2 with h2 | h2
  · exact absurd h2 (List.not_mem_nil x)
  · exact h2 hxid

theorem check_slots_classifies (gs : List Group) (K : Finset String)
    (g : Group) (v : Int) (hok : allVacanciesParse gs) (hg : g ∈ gs)
    (hv : coerceVacancy g = .ok v) (hpos : 0 < v)
    (hfresh : generate_slot_id g ∉ K) :
    generate_slot_id g ∈ newlyIds (check_slots (singleDay gs) K).1 := by
  obtain ⟨st', hst', heq⟩ := check_slots_singleDay_ok gs K hok
  rw [heq]
  obtain ⟨x, hxmem, hxid⟩ :=
    processGroups_classifies_fresh gs ⟨[], [], K⟩ st' g v hg hv hpos hfresh hst'
  simp only [newlyIds, List.mem_map]
  exact ⟨x, hxmem, hxid⟩

theorem notifies_of_mem_newlyIds (o : CycleOutcome) (s : String)
    (h : s ∈ newlyIds o) : notifies o = true := by
  cases o with
  | completed ns =>
    simp only [newlyIds, List.mem_map] at h
    obtain ⟨x, hx, _⟩ := h
    simp only [notifies, Bool.not_eq_true']
    rcases ns with _ | _
    · exact absurd hx (List.not_mem_nil x)
    · rfl
  | reauth => exact absurd h (List.not_mem_nil s)
  | serverError c => exact absurd h (List.not_mem_nil s)
  | emptySchedule => exact absurd h (List.not_mem_nil s)
  | errorCaught => exact absurd h (List.not_mem_nil s)

/- ## Sample records used by witnesses and counterexamples -/

/-- A record with API id "A" and three free seats. -/
def sampleA : Group :=
  { emptyGroup with id := some (.pstr "A"), vacancy := some (.pint 3) }

/-- A record with API id "B" and one free seat. -/
def sampleB : Group :=
  { emptyGroup with id := some (.pstr "B"), vacancy := some (.pint 1) }

/-- A record whose vacancy field is the non-numeric string "abc". -/
def sampleBad : Group :=
  { emptyGroup with id := some (.pstr "BAD"), vacancy := some (.pstr "abc") }

/- ## Claim theorems -/

/-- C5: the fingerprint is deterministic and independent of capacity
(changing only the `vacancy` field leaves it unchanged — determinism
itself is intrinsic to the pure embedding); when the record's `id` is a
present non-empty string the fingerprint is that string verbatim;
when `id` is absent, `None`, or empty, the fingerprint is the
deterministic digest of the ordered tuple of the schedule
(`week`, `time`), owner (`teacherUid`) and category (`section`) fields,
absent fields normalized to the empty-string placeholder by
`strFieldD`. -/
theorem fingerprint_spec :
    (∀ (item : Group) (v : Option PyVal),
      generate_slot_id { item with vacancy := v } = generate_slot_id item) ∧
    (∀ (item : Group) (s : String), item.id = some (.pstr s) → s ≠ "" →
      generate_slot_id item = s) ∧
    (∀ item : Group,
      item.id = none ∨ item.id = some .pnone ∨ item.id = some (.pstr "") →
      generate_slot_id item = md5hexdigest (String.intercalate "_"
        [strFieldD item.week, strFieldD item.time,
         strFieldD item.teacherUid, strFieldD item.sectionField])) := by
  refine ⟨fun item v => rfl, fun item s hid hs => ?_, fun item hid => ?_⟩
  · simp [generate_slot_id, pyGet, hid, pyTruthy, pyStr, hs]
  · rcases hid with hid | hid | hid <;>
      simp [generate_slot_id, pyGet, hid, pyTruthy]

/-- Witness for `fingerprint_spec` at concrete records. -/
theorem fingerprint_spec_witness :
    generate_slot_id { sampleA with vacancy := some (.pint 7) } =
      generate_slot_id sampleA ∧
    generate_slot_id sampleA = "A" ∧
    generate_slot_id emptyGroup = md5hexdigest (String.intercalate "_"
      [strFieldD emptyGroup.week, strFieldD emptyGroup.time,
       strFieldD emptyGroup.teacherUid, strFieldD emptyGroup.sectionField]) :=
  ⟨fingerprint_spec.1 sampleA (some (.pint 7)),
   fingerprint_spec.2.1 sampleA "A" rfl (by decide),
   fingerprint_spec.2.2 emptyGroup (Or.inl rfl)⟩

/-- C8: a cycle's fetch result is classified `Unauthorized`
(reauthentication path) exactly when the status code is 401 or 403,
and any other non-success (non-2xx) status is classified
`ServerError` with no reauthentication. -/
theorem status_code_classification (status : Nat)
    (payload : Option (List Day)) (known : Finset String) :
    (((check_slots (.httpResponse status payload) known).1 = .reauth) ↔
      (status = 401 ∨ status = 403)) ∧
    (¬(200 ≤ status ∧ status ≤ 299) → status ≠ 401 → status ≠ 403 →
      (check_slots (.httpResponse status payload) known).1 =
        .serverError status) := by
  by_cases h1 : status = 401 ∨ status = 403
  · constructor
    · constructor
      · intro _; exact h1
      · intro _
        simp only [check_slots]
        rw [if_pos h1]
    · intro _ h401 h403
      rcases h1 with h1 | h1
      · exact absurd h1 h401
      · exact absurd h1 h403
  · by_cases h2 : status = 200
    · subst h2
      constructor
      · constructor
        · intro habs
          exfalso
          cases payload with
          | none => simp [check_slots] at habs
          | some days =>
            by_cases hd : days.isEmpty
            · simp [check_slots, hd] at habs
            · cases hp : processGroups (days.flatMap fun d => d.groups.getD [])
                  ⟨[], [], known⟩ with
              | error st => simp [check_slots, hd, hp] at habs
              | ok st => simp [check_slots, hd, hp] at habs
        · intro habs; exact absurd habs h1
      · intro habs
        exact absurd ⟨by norm_num, by norm_num⟩ habs
    · constructor
      · constructor
        · intro habs
          exfalso
          simp only [check_slots] at habs
          rw [if_neg h1, if_pos h2] at habs
          exact CycleOutcome.noConfusion habs
        · intro habs; exact absurd habs h1
      · intro _ _ _
        simp only [check_slots]
        rw [if_neg h1, if_pos h2]

/-- Witness for `status_code_classification`: 401 reauthenticates,
500 is a server error. -/
theorem status_code_classification_witness :
    ((check_slots (.httpResponse 401 none) ∅).1 = .reauth) ∧
    ((check_slots (.httpResponse 500 none) ∅).1 = .serverError 500) :=
  ⟨(status_code_classification 401 none ∅).1.mpr (Or.inl rfl),
   (status_code_classification 500 none ∅).2 (by norm_num) (by norm_num)
     (by norm_num)⟩

/-- C9: on a 401/403 fetch result the cycle calls the reauthentication
gate exactly once and returns (the `.reauth` outcome is the single
`update_cookies_via_selenium()` call at src/main.py:261 followed by
`return` — no refetch and no recursion within the cycle); the fetched
data is discarded with no classification and `KNOWN_SLOTS` is exactly
the prior set. -/
theorem unauthorized_cycle_atomic (status : Nat)
    (payload : Option (List Day)) (known : Finset String)
    (h : status = 401 ∨ status = 403) :
    check_slots (.httpResponse status payload) known = (.reauth, known) := by
  simp only [check_slots]
  rw [if_pos h]

/-- Witness for `unauthorized_cycle_atomic`: a 403 response with a
non-trivial payload leaves the known set `{"A"}` untouched. -/
theorem unauthorized_cycle_atomic_witness :
    check_slots (.httpResponse 403 (some [⟨some [sampleB]⟩])) {"A"} =
      (.reauth, {"A"}) :=
  unauthorized_cycle_atomic 403 (some [⟨some [sampleB]⟩]) {"A"} (Or.inr rfl)

/-- Counterexample to C1: a successful fetch (status 200) whose parsed
payload is the empty day-list leaves the Known-Set `{"A"}` unchanged —
the cycle returns at the `if not days_list` guard (src/main.py:272)
before any classification or eviction — so the claimed total eviction
to `∅` does not happen. -/
theorem empty_days_eviction_cex :
    check_slots (.httpResponse 200 (some [])) {"A"} =
      (.emptySchedule, {"A"}) ∧
    ({"A"} : Finset String) ≠ (∅ : Finset String) := ⟨rfl, by decide⟩

/-- C1 as amended: on a status-200 fetch whose parsed payload is the
empty day-list, `check_slots` returns early with no notification and
the Known-Set exactly as it was (no eviction); total eviction to `∅`
happens instead when the day-list is non-empty but contains no
records. -/
theorem empty_days_preserve_known_set (known : Finset String) :
    check_slots (.httpResponse 200 (some [])) known =
      (.emptySchedule, known) ∧
    check_slots (.httpResponse 200 (some [⟨some []⟩])) known =
      (.completed [], ∅) := by
  constructor
  · rfl
  · simp [check_slots, processGroups]

/-- Counterexample to C2: dispatching 15 records renders 15 card
entries, not the claimed 10 plus a "+5 more" marker — `format_message`
(src/main.py:212) has no truncation logic at all. -/
theorem truncation_cex :
    renderedCardCount [] (List.replicate 15 sampleA) = 15 ∧
    (15 : Nat) ≠ 10 := ⟨rfl, by decide⟩

/-- C2 as amended: `format_message` renders a single message containing
the header plus exactly one card entry per input record — all `n`
records for every `n`, with no fixed-prefix truncation and no
remainder marker; in particular 15 records render 15 cards. -/
theorem format_message_renders_all_records
    (ratings : List (String × TeacherInfo)) (new_items : List Group) :
    renderedCardCount ratings new_items = new_items.length ∧
    (formatMessageLines ratings new_items).length = new_items.length + 1 := by
  constructor <;> simp [renderedCardCount, formatMessageLines]

/-- Replace the sender identity of an update's message, leaving
everything else unchanged. -/
def setSender (s : String) (u : TgUpdate) : TgUpdate :=
  { u with message := u.message.map (fun m => { m with sender := s }) }

/-- Counterexample to C3: with configured recipient identity "12345",
an inbound `/start` from the unrelated sender "999" still runs the
greeting handler — `check_telegram_commands` (src/main.py:368) never
compares the sender identity with anything. -/
theorem sender_filter_cex :
    (check_telegram_commands 200 [⟨1, some ⟨"999", some "/start"⟩⟩] 0).2 =
      [.greetReply] ∧ ("999" : String) ≠ "12345" := ⟨by decide, by decide⟩

/-- C3 as amended: the command channel acts on every retrieved update
whose stripped, lowercased text is `/start` or `/check`, regardless of
the sender identity — the invoked handlers are invariant under
rewriting every sender to an arbitrary identity. -/
theorem command_handlers_ignore_sender (s : String) (status : Nat)
    (updates : List TgUpdate) (lastId : Nat) :
    check_telegram_commands status (updates.map (setSender s)) lastId =
      check_telegram_commands status updates lastId := by
  unfold check_telegram_commands
  by_cases h : status = 200
  · rw [if_pos h, if_pos h]
    induction updates generalizing lastId with
    | nil => rfl
    | cons u rest ih =>
      cases hm : u.message with
      | none => simp [processUpdates, setSender, hm, ih]
      | some m => simp [processUpdates, setSender, hm, ih]
  · rw [if_neg h, if_neg h]

/-- A coercion failure part-way through the classification loop: after a
prefix that parses, the erroring record's slot id joins the current map
and then `int()` raises, so the loop aborts carrying the state
accumulated over the prefix (src/main.py:283-291). -/
theorem processGroups_append_error : ∀ (gs : List Group) (g : Group)
    (rest : List Group) (st st' : LoopState) (e : String),
    coerceVacancy g = .error e → processGroups gs st = .ok st' →
    processGroups (gs ++ g :: rest) st =
      .error { st' with currentIds := st'.currentIds ++ [generate_slot_id g] } := by
  intro gs
  induction gs with
  | nil =>
    intro g rest st st' e he h
    simp only [processGroups, Except.ok.injEq] at h
    subst h
    simp only [List.nil_append, processGroups, he]
  | cons a t ih =>
    intro g rest st st' e he h
    cases hv : coerceVacancy a with
    | error e2 =>
      simp only [processGroups, hv] at h
      exact Except.noConfusion h
    | ok w =>
      simp only [processGroups, hv] at h
      simp only [List.cons_append, processGroups, hv]
      by_cases hc : 0 < w ∧ generate_slot_id a ∉ st.known
      · rw [if_pos hc] at h ⊢
        exact ih g rest _ st' e he h
      · rw [if_neg hc] at h ⊢
        exact ih g rest _ st' e he h

/-- Counterexample to C4: the capacity value "abc" is not coerced to 0 —
`int("abc")` raises `ValueError`, and the exception aborts the poll
cycle's classification (caught only by the cycle's outer handler,
src/main.py:306). -/
theorem vacancy_coercion_cex :
    coerceVacancy sampleBad =
      .error "ValueError: invalid literal for int: abc" ∧
    (check_slots (singleDay [sampleBad]) ∅).1 = .errorCaught :=
  ⟨by decide, by decide⟩

/-- C4 as amended: `int(group.get('vacancy', 0))` yields 0 when the
field is absent, the value itself for an integer, and the parsed value
for a numeric string; but a value `int()` rejects raises, aborting the
remainder of that poll cycle's classification wherever it occurs in the
payload: the cycle ends as `errorCaught` with the Known-Set exactly as
accumulated over the records processed before the exception — it still
contains the whole prior set (no `intersection_update` eviction runs)
and has gained the fingerprints of the available records of the
processed prefix, which were thus added without ever being
notified. -/
theorem vacancy_coercion_behaviour :
    (∀ g : Group, g.vacancy = none → coerceVacancy g = .ok 0) ∧
    (∀ (g : Group) (n : Int), g.vacancy = some (.pint n) →
      coerceVacancy g = .ok n) ∧
    (∀ (g : Group) (s : String) (n : Int), g.vacancy = some (.pstr s) →
      parseIntStr s = some n → coerceVacancy g = .ok n) ∧
    (∀ (gs rest : List Group) (g : Group) (K : Finset String) (e : String),
      allVacanciesParse gs → coerceVacancy g = .error e →
      ∃ st', processGroups gs ⟨[], [], K⟩ = .ok st' ∧
        check_slots (singleDay (gs ++ g :: rest)) K =
          (.errorCaught, st'.known) ∧
        K ⊆ st'.known ∧
        (∀ (x : Group) (w : Int), x ∈ gs → coerceVacancy x = .ok w →
          0 < w → generate_slot_id x ∈ st'.known)) := by
  refine ⟨fun g hg => by simp [coerceVacancy, hg, pyInt],
          fun g n hg => by simp [coerceVacancy, hg, pyInt],
          fun g s n hg hp => by simp [coerceVacancy, hg, pyInt, hp],
          fun gs rest g K e hok he => ?_⟩
  obtain ⟨st', hst'⟩ := processGroups_total gs ⟨[], [], K⟩ hok
  refine ⟨st', hst', ?_, processGroups_known_mono _ _ _ hst',
    fun x w hx hxv hxw =>
      processGroups_adds_available _ _ _ _ _ hx hxv hxw hst'⟩
  simp only [check_slots, singleDay]
  norm_num
  rw [processGroups_append_error gs g rest _ st' e he hst']

/-- Witness for `vacancy_coercion_behaviour` at concrete records: the
exception hits mid-payload, after the available record `sampleB` has
already been accumulated from the prior Known-Set `{"A"}`. -/
theorem vacancy_coercion_behaviour_witness :
    coerceVacancy emptyGroup = .ok 0 ∧
    coerceVacancy sampleA = .ok 3 ∧
    coerceVacancy { emptyGroup with vacancy := some (.pstr " 7 ") } = .ok 7 ∧
    (∃ st', processGroups [sampleB] ⟨[], [], {"A"}⟩ = .ok st' ∧
      check_slots (singleDay ([sampleB] ++ sampleBad :: [sampleA])) {"A"} =
        (.errorCaught, st'.known) ∧
      ({"A"} : Finset String) ⊆ st'.known ∧
      (∀ (x : Group) (w : Int), x ∈ [sampleB] → coerceVacancy x = .ok w →
        0 < w → generate_slot_id x ∈ st'.known)) ∧
    (check_slots (singleDay ([sampleB] ++ sampleBad :: [sampleA])) {"A"}).2 =
      {"B", "A"} :=
  ⟨vacancy_coercion_behaviour.1 emptyGroup rfl,
   vacancy_coercion_behaviour.2.1 sampleA 3 rfl,
   vacancy_coercion_behaviour.2.2.1 _ " 7 " 7 rfl (by decide),
   vacancy_coercion_behaviour.2.2.2 [sampleB] [sampleA] sampleBad {"A"}
     "ValueError: invalid literal for int: abc"
     (by intro x hx; rw [List.mem_singleton] at hx; subst hx; exact ⟨1, rfl⟩)
     (by decide),
   by decide⟩

/-- C6: over three consecutive completed cycles whose payloads all
contain a record `g` with positive coerced vacancy, and whose
fingerprint is unknown at the start, `g`'s fingerprint is classified
newly-available (and a notification is sent) in cycle 1 only, and in
neither of the two following cycles while it stays present. -/
theorem no_duplicate_notification (gs1 gs2 gs3 : List Group) (g : Group)
    (v : Int) (known0 : Finset String)
    (hok1 : allVacanciesParse gs1) (hok2 : allVacanciesParse gs2)
    (hok3 : allVacanciesParse gs3)
    (hg1 : g ∈ gs1) (hg2 : g ∈ gs2) (_hg3 : g ∈ gs3)
    (hv : coerceVacancy g = .ok v) (hpos : 0 < v)
    (hfresh : generate_slot_id g ∉ known0) :
    generate_slot_id g ∈ newlyIds (check_slots (singleDay gs1) known0).1 ∧
    notifies (check_slots (singleDay gs1) known0).1 = true ∧
    generate_slot_id g ∉
      newlyIds (check_slots (singleDay gs2)
        (check_slots (singleDay gs1) known0).2).1 ∧
    generate_slot_id g ∉
      newlyIds (check_slots (singleDay gs3)
        (check_slots (singleDay gs2)
          (check_slots (singleDay gs1) known0).2).2).1 := by
  have h1 := check_slots_classifies gs1 known0 g v hok1 hg1 hv hpos hfresh
  have hk1 : generate_slot_id g ∈ (check_slots (singleDay gs1) known0).2 :=
    check_slots_retains gs1 known0 g v hok1 hg1 hv hpos
  have h2 := check_slots_no_renotify gs2 _ _ hok2 hk1
  have hk2 := check_slots_retains gs2 (check_slots (singleDay gs1) known0).2
    g v hok2 hg2 hv hpos
  have h3 := check_slots_no_renotify gs3 _ _ hok3 hk2
  exact ⟨h1, notifies_of_mem_newlyIds _ _ h1, h2, h3⟩

/-- Witness for `no_duplicate_notification`: the record `sampleA`,
present with vacancy 3 in three consecutive cycles starting from the
empty known set. -/
theorem no_duplicate_notification_witness :
    generate_slot_id sampleA ∈
      newlyIds (check_slots (singleDay [sampleA]) ∅).1 ∧
    notifies (check_slots (singleDay [sampleA]) ∅).1 = true ∧
    generate_slot_id sampleA ∉
      newlyIds (check_slots (singleDay [sampleA])
        (check_slots (singleDay [sampleA]) ∅).2).1 ∧
    generate_slot_id sampleA ∉
      newlyIds (check_slots (singleDay [sampleA])
        (check_slots (singleDay [sampleA])
          (check_slots (singleDay [sampleA]) ∅).2).2).1 :=
  no_duplicate_notification [sampleA] [sampleA] [sampleA] sampleA 3 ∅
    (by intro x hx; rw [List.mem_singleton] at hx; subst hx; exact ⟨3, rfl⟩)
    (by intro x hx; rw [List.mem_singleton] at hx; subst hx; exact ⟨3, rfl⟩)
    (by intro x hx; rw [List.mem_singleton] at hx; subst hx; exact ⟨3, rfl⟩)
    (by decide) (by decide) (by decide) rfl (by decide) (by decide)

/-- C7: a known record whose fingerprint is absent from the full
fingerprint set of a later completed cycle N is evicted in cycle N
(and stays out through cycle N+1 if still absent); when a record with
that fingerprint reappears with positive coerced vacancy in cycle N+2,
it is classified newly-available again. -/
theorem renotification_after_disappearance (gsN gsN1 gsN2 : List Group)
    (g : Group) (v : Int) (known : Finset String)
    (_hknown : generate_slot_id g ∈ known)
    (hokN : allVacanciesParse gsN) (hokN1 : allVacanciesParse gsN1)
    (hokN2 : allVacanciesParse gsN2)
    (habsN : generate_slot_id g ∉ gsN.map generate_slot_id)
    (habsN1 : generate_slot_id g ∉ gsN1.map generate_slot_id)
    (hg : g ∈ gsN2) (hv : coerceVacancy g = .ok v) (hpos : 0 < v) :
    generate_slot_id g ∉ (check_slots (singleDay gsN) known).2 ∧
    generate_slot_id g ∉ (check_slots (singleDay gsN1)
      (check_slots (singleDay gsN) known).2).2 ∧
    generate_slot_id g ∈ newlyIds (check_slots (singleDay gsN2)
      (check_slots (singleDay gsN1)
        (check_slots (singleDay gsN) known).2).2).1 := by
  have e1 : generate_slot_id g ∉ (check_slots (singleDay gsN) known).2 :=
    fun hmem => habsN (check_slots_evicts gsN known _ hokN hmem)
  have e2 : generate_slot_id g ∉ (check_slots (singleDay gsN1)
      (check_slots (singleDay gsN) known).2).2 :=
    fun hmem => habsN1 (check_slots_evicts gsN1 _ _ hokN1 hmem)
  exact ⟨e1, e2, check_slots_classifies gsN2 _ g v hokN2 hg hv hpos e2⟩

/-- Witness for `renotification_after_disappearance`: `sampleA` is
known, vanishes for two cycles (which carry only `sampleB`), and
reappears in the third. -/
theorem renotification_after_disappearance_witness :
    generate_slot_id sampleA ∉ (check_slots (singleDay [sampleB]) {"A"}).2 ∧
    generate_slot_id sampleA ∉ (check_slots (singleDay [sampleB])
      (check_slots (singleDay [sampleB]) {"A"}).2).2 ∧
    generate_slot_id sampleA ∈ newlyIds (check_slots (singleDay [sampleA])
      (check_slots (singleDay [sampleB])
        (check_slots (singleDay [sampleB]) {"A"}).2).2).1 :=
  renotification_after_disappearance [sampleB] [sampleB] [sampleA]
    sampleA 3 {"A"} (by decide)
    (by intro x hx; rw [List.mem_singleton] at hx; subst hx; exact ⟨1, rfl⟩)
    (by intro x hx; rw [List.mem_singleton] at hx; subst hx; exact ⟨1, rfl⟩)
    (by intro x hx; rw [List.mem_singleton] at hx; subst hx; exact ⟨3, rfl⟩)
    (by decide) (by decide) (by decide) rfl (by decide)

theorem collectAvailable_stops_at_error : ∀ (gs : List Group) (g : Group)
    (rest acc : List Group) (e : String), coerceVacancy g = .error e →
    collectAvailable (gs ++ g :: rest) acc = collectAvailable gs acc := by
  intro gs
  induction gs with
  | nil =>
    intro g rest acc e he
    simp only [List.nil_append, collectAvailable, he]
  | cons a t ih =>
    intro g rest acc e he
    simp only [List.cons_append, collectAvailable]
    cases hv : coerceVacancy a with
    | error e2 => rfl
    | ok w =>
      by_cases hw : 0 < w
      · simp only [hw, if_true, if_pos]
        exact ih g rest (acc ++ [a]) e he
      · simp only [hw, if_false, if_neg, not_false_iff]
        exact ih g rest acc e he

/-- Counterexample to C10: a vacancy-coercion exception partway through
the snapshot collection is a failure path on which
`get_all_available_slots` returns the non-empty partial list collected
before the exception (`slots` is returned after the `except` block,
src/main.py:334-337), not the empty list. -/
theorem snapshot_empty_on_failure_cex :
    coerceVacancy sampleBad =
      .error "ValueError: invalid literal for int: abc" ∧
    get_all_available_slots (singleDay [sampleB, sampleBad]) = [sampleB] ∧
    ([sampleB] : List Group) ≠ [] := ⟨by decide, by decide, by decide⟩

/-- C10 as amended: the snapshot fetch returns `[]` (and never raises)
on any non-200 status — including 401/403 after a single
reauthentication attempt — on a network failure, and on a JSON parse
failure; on a vacancy-coercion exception mid-collection it instead
returns the partial list accumulated before the erroring record.
Whenever it returns `[]`, the `/check` handler replies with the fixed
no-slots message, so such failures are indistinguishable to the user
from a genuine zero-availability response. -/
theorem snapshot_failure_behaviour :
    (∀ (status : Nat) (payload : Option (List Day)), status ≠ 200 →
      get_all_available_slots (.httpResponse status payload) = []) ∧
    get_all_available_slots .networkFailure = [] ∧
    get_all_available_slots (.httpResponse 200 none) = [] ∧
    (∀ (gs rest : List Group) (g : Group) (e : String),
      coerceVacancy g = .error e →
      get_all_available_slots (singleDay (gs ++ g :: rest)) =
        collectAvailable gs []) ∧
    (∀ (ratings : List (String × TeacherInfo)) (r : FetchResult),
      get_all_available_slots r = [] →
      handle_check_command ratings r = noSlotsReply) ∧
    (∀ (ratings : List (String × TeacherInfo)) (status : Nat)
      (payload : Option (List Day)), status ≠ 200 →
      handle_check_command ratings (.httpResponse status payload) =
        handle_check_command ratings (.httpResponse 200 (some []))) := by
  have base : ∀ (status : Nat) (payload : Option (List Day)), status ≠ 200 →
      get_all_available_slots (.httpResponse status payload) = [] := by
    intro status payload h
    by_cases h1 : status = 401 ∨ status = 403
    · simp [get_all_available_slots, h1]
    · simp [get_all_available_slots, h1, h]
  have hreply : ∀ (ratings : List (String × TeacherInfo)) (r : FetchResult),
      get_all_available_slots r = [] →
      handle_check_command ratings r = noSlotsReply := by
    intro ratings r h
    simp [handle_check_command, h]
  refine ⟨base, rfl, rfl, ?_, hreply, ?_⟩
  · intro gs rest g e he
    have hflat : get_all_available_slots (singleDay (gs ++ g :: rest)) =
        collectAvailable (gs ++ g :: rest) [] := by
      simp [get_all_available_slots, singleDay]
    rw [hflat]
    exact collectAvailable_stops_at_error gs g rest [] e he
  · intro ratings status payload h
    rw [hreply ratings _ (base status payload h)]
    rw [hreply ratings (.httpResponse 200 (some [])) rfl]

/-- Witness for `snapshot_failure_behaviour` at concrete inputs. -/
theorem snapshot_failure_behaviour_witness :
    get_all_available_slots (.httpResponse 403 (some [⟨some [sampleA]⟩])) = [] ∧
    get_all_available_slots .networkFailure = [] ∧
    get_all_available_slots (.httpResponse 200 none) = [] ∧
    get_all_available_slots (singleDay ([sampleB] ++ sampleBad :: [sampleA])) =
      collectAvailable [sampleB] [] ∧
    handle_check_command [] (.httpResponse 500 none) = noSlotsReply ∧
    handle_check_command [] (.httpResponse 403 none) =
      handle_check_command [] (.httpResponse 200 (some [])) :=
  ⟨snapshot_failure_behaviour.1 403 (some [⟨some [sampleA]⟩]) (by decide),
   snapshot_failure_behaviour.2.1,
   snapshot_failure_behaviour.2.2.1,
   snapshot_failure_behaviour.2.2.2.1 [sampleB] [sampleA] sampleBad
     "ValueError: invalid literal for int: abc" (by decide),
   snapshot_failure_behaviour.2.2.2.2.1 [] (.httpResponse 500 none) (by decide),
   snapshot_failure_behaviour.2.2.2.2.2 [] 403 none (by decide)⟩

end Main
